import Mathlib

/-!
Verification of the ABC tune-ingestion pipeline
(file discovery → segmentation → field extraction → batch load).

Text is modelled as `List Char`; the Python functions of
`abc_parser.py`, `file_loader.py`, `database.py` and `main.py` are
embedded as executable Lean definitions, faithful to the source line by
line.  Persistence, the filesystem and the interpreter's Unicode
database are modelled by explicit oracles (a success oracle per insert
attempt, a directory listing, a per-file read result, a per-character
numeric classification table), since the source talks to MySQL, the OS
and the version-dependent Unicode tables there.
-/

/-- Whitespace as stripped by Python `str.strip()` (ASCII subset:
space, tab, newline, carriage return, vertical tab, form feed). -/
def pyIsSpace (c : Char) : Bool :=
  c = ' ' || c = '\t' || c = '\n' || c = '\r' || c = '\x0b' || c = '\x0c'

/-- Python `s.strip()`: drop leading and trailing whitespace. -/
def pyStrip (s : List Char) : List Char :=
  ((s.dropWhile pyIsSpace).reverse.dropWhile pyIsSpace).reverse

/-- Does the text begin with the record-start marker `X:`?
(the lookahead of the regex `\n(?=X:)` in `parse_abc_file`). -/
def startsX : List Char → Bool
  | 'X' :: ':' :: _ => true
  | _ => false

/-- `re.split(r'\n(?=X:)', content)` from `abc_parser.parse_abc_file`
(line 30): the text is cut at every newline that is immediately
followed by `X:`; the newline itself is consumed as the separator and
belongs to no chunk. -/
def splitChunks : List Char → List (List Char)
  | [] => [[]]
  | c :: rest =>
    if c == '\n' && startsX rest then
      [] :: splitChunks rest
    else
      match splitChunks rest with
      | [] => [[c]]
      | g :: gs => (c :: g) :: gs

/-- Re-joining chunks with one newline re-inserted between consecutive
chunks (the inverse of `splitChunks`, which consumed those newlines). -/
def joinChunks : List (List Char) → List Char
  | [] => []
  | [g] => g
  | g :: gs => g ++ '\n' :: joinChunks gs

/-- The dictionary built by `abc_parser.parse_single_tune` (lines
57-64).  The Python dict key `abc_notation` is rendered as `raw_text`
(the spec's name for the same field). -/
structure TuneDict where
  reference_number : List Char
  title : List Char
  type : List Char
  meter : List Char
  key : List Char
  raw_text : List Char
  deriving Repr, DecidableEq

/-- The body of the line loop of `parse_single_tune` (lines 68-89):
strip the line, then the `if`/`elif` chain on the two-character
field markers, `T:` guarded by `and not tune_dict['title']`. -/
def updateLine (d : TuneDict) (rawLine : List Char) : TuneDict :=
  let line := pyStrip rawLine
  if List.isPrefixOf ['X', ':'] line then
    { d with reference_number := pyStrip (line.drop 2) }
  else if List.isPrefixOf ['T', ':'] line && d.title.isEmpty then
    { d with title := pyStrip (line.drop 2) }
  else if List.isPrefixOf ['R', ':'] line then
    { d with type := pyStrip (line.drop 2) }
  else if List.isPrefixOf ['M', ':'] line then
    { d with meter := pyStrip (line.drop 2) }
  else if List.isPrefixOf ['K', ':'] line then
    { d with key := pyStrip (line.drop 2) }
  else d

/-- `abc_parser.parse_single_tune`: start from all-empty fields with
`raw_text` the verbatim input, split on newlines, fold the line loop. -/
def parse_single_tune (tune_text : List Char) : TuneDict :=
  (tune_text.splitOn '\n').foldl updateLine
    { reference_number := [], title := [], type := [], meter := [],
      key := [], raw_text := tune_text }

/-- The chunk filter of `parse_abc_file` (line 34): skip a section when
`not section.strip()` or `not section.strip().startswith('X:')`. -/
def keepChunk (s : List Char) : Bool :=
  !(pyStrip s).isEmpty && List.isPrefixOf ['X', ':'] (pyStrip s)

/-- `abc_parser.parse_abc_file` after a successful read: split the
content into sections, drop the filtered ones, parse each kept section.
(The Python `if tune_dict:` is always true — the dict is non-empty —
so every parsed section is appended.) -/
def parse_abc_file (content : List Char) : List TuneDict :=
  ((splitChunks content).filter keepChunk).map parse_single_tune

/-- `parse_abc_file` including its `try`/`except`: `none` models the
read (or split) raising, which is caught at line 42 and leaves `tunes`
as the accumulated list so far — necessarily `[]`, since every raising
operation precedes the section loop. -/
def parse_abc_file_from_read (r : Option (List Char)) : List TuneDict :=
  match r with
  | none => []
  | some content => parse_abc_file content

/-- Value of a field line: when the (already stripped) line starts with
the marker `p:`, everything after the two-character marker, stripped. -/
def fieldVal (p : Char) (line : List Char) : Option (List Char) :=
  if List.isPrefixOf [p, ':'] line then some (pyStrip (line.drop 2)) else none

/-- All values declared for marker `p` in a chunk, in line order
(lines are stripped before matching, as the extractor does). -/
def valsOf (p : Char) (s : List Char) : List (List Char) :=
  ((s.splitOn '\n').map pyStrip).filterMap (fieldVal p)

/-- The first value for marker `p` whose stripped text is non-empty
(empty string when none): the title the extractor actually keeps. -/
def firstNonemptyVal (p : Char) (s : List Char) : List Char :=
  ((valsOf p s).filter (fun v => !v.isEmpty)).headD []

example : parse_abc_file ['X', ':', '1', '\n', 'X', ':', '2'] =
    [{ reference_number := ['1'], title := [], type := [], meter := [],
       key := [], raw_text := ['X', ':', '1'] },
     { reference_number := ['2'], title := [], type := [], meter := [],
       key := [], raw_text := ['X', ':', '2'] }] := by decide

example :
    (parse_single_tune
      ['X', ':', '1', '\n', 'T', ':', '\n', 'T', ':', 'B']).title = ['B'] := by
  decide

example : splitChunks [' ', 'X', ':', '1', '\n', 'X', ':', '2'] =
    [[' ', 'X', ':', '1'], ['X', ':', '2']] := by decide

/-! ## File locator (`file_loader.find_abc_files`) -/

/-- A directory entry inside a numbered folder, as returned by the
inner `os.listdir(folder_path)`: its name, whether it is itself a
directory, and the names one level deeper (which the locator must
never look at). -/
structure ChildEntry where
  name : List Char
  isDir : Bool
  deeper : List (List Char)
  deriving Repr, DecidableEq

/-- A directory entry of the root, as returned by
`os.listdir(root_dir)`: name, `os.path.isdir` answer, and the entries
listed inside it. -/
structure RootEntry where
  name : List Char
  isDir : Bool
  children : List ChildEntry
  deriving Repr, DecidableEq

/-- The numeric classification of one character in the Python
runtime's Unicode database.  This is version-dependent data shipped
with the interpreter, so the embedding takes the whole table as an
explicit parameter, like the filesystem: `decimal v` stands for a
Numeric_Type=Decimal character (category Nd, any script) — counted by
`str.isdigit` and accepted by `int()` with decimal value `v`;
`digitOnly` for a Numeric_Type=Digit character such as U+00B2 — still
counted by `str.isdigit`, but `int()` raises `ValueError` on it;
`other` for every remaining character — `str.isdigit` is false. -/
inductive PyCharNumeric
  | decimal (v : Nat)
  | digitOnly
  | other
  deriving Repr, DecidableEq

/-- Python `c.isdigit()` for one character under Unicode table `uni`:
true exactly for the `decimal` and `digitOnly` classes. -/
def isPyDigitChar (uni : Char → PyCharNumeric) (c : Char) : Bool :=
  match uni c with
  | PyCharNumeric.decimal _ => true
  | PyCharNumeric.digitOnly => true
  | PyCharNumeric.other => false

/-- Python `s.isdigit()`: non-empty and every character isdigit. -/
def pyIsDigitStr (uni : Char → PyCharNumeric) (s : List Char) : Bool :=
  !s.isEmpty && s.all (isPyDigitChar uni)

/-- Python `int(s)` on the strings it is applied to inside
`find_abc_files` (they already passed `s.isdigit()`, so they contain
no sign, whitespace or underscore): `int` succeeds exactly when every
character is a decimal digit — of any script — returning the base-10
value assembled from the characters' Unicode decimal values; a
`digitOnly` character such as U+00B2 makes it raise `ValueError`,
modelled as `none`. -/
def pyInt (uni : Char → PyCharNumeric) (s : List Char) : Option Nat :=
  if s.isEmpty then none
  else
    s.foldl
      (fun acc c =>
        match acc, uni c with
        | some n, PyCharNumeric.decimal v => some (10 * n + v)
        | _, _ => none)
      (some 0)

/-- `os.path.join(a, b)` for the paths the loader builds (a component
appended behind one separator). -/
def pathJoin (a b : List Char) : List Char := a ++ '/' :: b

/-- Python `file_name.endswith('.abc')` (case-sensitive). -/
def endsWithAbc (name : List Char) : Bool :=
  List.isSuffixOf ['.', 'a', 'b', 'c'] name

/-- One iteration of the outer loop of `file_loader.find_abc_files`:
once `int` has raised, the exception propagates unhandled (the fold
stays in the error state and the partial list is lost); otherwise a
directory whose name passes `isdigit()` has `int(folder_name)`
evaluated — raising `ValueError` on an isdigit-true but non-decimal
name, there is no `try` around it — and on success contributes every
entry of its own listing whose name ends in `.abc` (the source checks
only the name — lines 34-37 — never whether the entry is a regular
file); everything else is skipped. -/
def locStep (uni : Char → PyCharNumeric) (root_dir : List Char)
    (acc : Except Unit (List (Nat × List Char))) (e : RootEntry) :
    Except Unit (List (Nat × List Char)) :=
  match acc with
  | Except.error err => Except.error err
  | Except.ok abc_files =>
    if e.isDir && pyIsDigitStr uni e.name then
      match pyInt uni e.name with
      | none => Except.error ()
      | some book_number =>
        Except.ok
          (e.children.foldl
            (fun acc2 c =>
              if endsWithAbc c.name then
                acc2 ++ [(book_number, pathJoin (pathJoin root_dir e.name) c.name)]
              else acc2)
            abc_files)
    else Except.ok abc_files

/-- `file_loader.find_abc_files` under Unicode table `uni`:
`Except.error ()` models the uncaught `ValueError` of `int` on an
isdigit-true but non-decimal folder name aborting the whole walk. -/
def find_abc_files (uni : Char → PyCharNumeric) (root_dir : List Char)
    (listing : List RootEntry) : Except Unit (List (Nat × List Char)) :=
  listing.foldl (locStep uni root_dir) (Except.ok [])

/-! ## Database (`database.insert_tune`, `database.insert_tunes_batch`) -/

/-- One row of the `tunes` table, with the columns bound by the
`INSERT` of `database.insert_tune` (lines 88-103). -/
structure Row where
  book_number : Nat
  reference_number : List Char
  title : List Char
  type : List Char
  meter : List Char
  key_signature : List Char
  raw_text : List Char
  file_path : List Char
  deriving Repr, DecidableEq

/-- The `values` tuple of `insert_tune`: the tune's five fields plus
provenance (`tune.get('key')` fills `key_signature`; the dict entry
`abc_notation` is our `raw_text`). -/
def mkRow (book_number : Nat) (tune : TuneDict) (file_path : List Char) : Row :=
  { book_number := book_number
    reference_number := tune.reference_number
    title := tune.title
    type := tune.type
    meter := tune.meter
    key_signature := tune.key
    raw_text := tune.raw_text
    file_path := file_path }

/-- The persistence state: `ok i` simulates whether the `i`-th insert
attempt of the run succeeds (a MySQL `Error` raised by `execute` or
`commit` is caught in `insert_tune` and surfaces as `False`);
`nAttempts` counts attempts made; `rows` are the committed rows in
insertion order. -/
structure DB where
  ok : Nat → Bool
  nAttempts : Nat
  rows : List Row

/-- `database.insert_tune`: one attempt; on success the row is
committed and `True` returned, on a caught error `False`; either way
the attempt is consumed. -/
def insert_tune (db : DB) (tune : TuneDict) (book_number : Nat)
    (file_path : List Char) : Bool × DB :=
  if db.ok db.nAttempts then
    (true, { db with nAttempts := db.nAttempts + 1,
                     rows := db.rows ++ [mkRow book_number tune file_path] })
  else
    (false, { db with nAttempts := db.nAttempts + 1 })

/-- `database.insert_tunes_batch`: `count = 0`, then for each tune in
order `if insert_tune(...): count += 1`; returns the count (and the
threaded persistence state). -/
def batchStep (book_number : Nat) (file_path : List Char)
    (acc : Nat × DB) (tune : TuneDict) : Nat × DB :=
  let r := insert_tune acc.2 tune book_number file_path
  (if r.1 then acc.1 + 1 else acc.1, r.2)

def insert_tunes_batch (db : DB) (tunes : List TuneDict) (book_number : Nat)
    (file_path : List Char) : Nat × DB :=
  tunes.foldl (batchStep book_number file_path) (0, db)

/-- Number of successful simulated outcomes among `len` consecutive
attempts starting at attempt index `n0`. -/
def countOk (okF : Nat → Bool) (n0 : Nat) : Nat → Nat
  | 0 => 0
  | len + 1 => (if okF n0 then 1 else 0) + countOk okF (n0 + 1) len

/-- The rows a batch starting at attempt index `n0` commits: one row
per tune whose attempt succeeds, in input order. -/
def successRows (okF : Nat → Bool) (n0 : Nat) (book_number : Nat)
    (file_path : List Char) : List TuneDict → List Row
  | [] => []
  | t :: ts =>
    if okF n0 then
      mkRow book_number t file_path :: successRows okF (n0 + 1) book_number file_path ts
    else
      successRows okF (n0 + 1) book_number file_path ts

/-! ## Pipeline driver (`main.load_all_tunes`) -/

/-- The per-file report line of the driver loop: `"{count} tunes"`,
`"No tunes found"`, or `"Error - {e}"`. -/
inductive FileOutcome
  | loaded (n : Nat)
  | noTunes
  | failed
  deriving Repr, DecidableEq

/-- What happens when one file is handled: `crash` models an
unexpected exception raised while handling the file (caught by the
driver's `except` at main.py line 65); `readRes r` models
`parse_abc_file` running with read result `r` (`none` = the read
raised inside `parse_abc_file` and was caught there). -/
inductive FileFate
  | crash
  | readRes (r : Option (List Char))
  deriving Repr

/-- One discovered file as the driver sees it: book number, path, and
its fate for this run. -/
structure FileTask where
  book_number : Nat
  file_path : List Char
  fate : FileFate

/-- The driver's running state: persistence state, `total_tunes`,
`files_processed`, and the per-file report lines in order. -/
structure RunState where
  db : DB
  total_tunes : Nat
  files_processed : Nat
  outcomes : List FileOutcome

/-- One iteration of the driver loop (main.py lines 50-66): parse; if
the tune list is non-empty, batch-insert, add the returned count to
`total_tunes` and bump `files_processed`; else report "No tunes
found"; an unexpected exception is caught and reported as an error. -/
def processFile (st : RunState) (f : FileTask) : RunState :=
  match f.fate with
  | FileFate.crash => { st with outcomes := st.outcomes ++ [FileOutcome.failed] }
  | FileFate.readRes r =>
    let tunes := parse_abc_file_from_read r
    if tunes.isEmpty then
      { st with outcomes := st.outcomes ++ [FileOutcome.noTunes] }
    else
      let p := insert_tunes_batch st.db tunes f.book_number f.file_path
      { db := p.2
        total_tunes := st.total_tunes + p.1
        files_processed := st.files_processed + 1
        outcomes := st.outcomes ++ [FileOutcome.loaded p.1] }

/-- `main.load_all_tunes`'s parse-and-load loop over the discovered
files, from zeroed counters. -/
def load_all_tunes (db : DB) (files : List FileTask) : RunState :=
  files.foldl processFile { db := db, total_tunes := 0, files_processed := 0, outcomes := [] }

/-- The outcome is a loaded-report (the file yielded at least one
parsed record and was handed to the batch loader). -/
def outcomeLoaded : FileOutcome → Bool
  | FileOutcome.loaded _ => true
  | _ => false

/-- The outcome is "No tunes found". -/
def outcomeNoTunes : FileOutcome → Bool
  | FileOutcome.noTunes => true
  | _ => false

/-- The outcome is a caught per-file error. -/
def outcomeFailed : FileOutcome → Bool
  | FileOutcome.failed => true
  | _ => false

/-- The outcome reports at least one successfully persisted record. -/
def outcomeLoadedPos : FileOutcome → Bool
  | FileOutcome.loaded (_ + 1) => true
  | _ => false


/-! ## Helper lemmas: segmentation -/

theorem splitChunks_ne_nil (cs : List Char) : splitChunks cs ≠ [] := by
  cases cs with
  | nil => simp [splitChunks]
  | cons c rest =>
    simp only [splitChunks]
    split
    · simp
    · cases splitChunks rest <;> simp

theorem joinChunks_cons_head (c : Char) (g : List Char) (gs : List (List Char)) :
    joinChunks ((c :: g) :: gs) = c :: joinChunks (g :: gs) := by
  cases gs <;> simp [joinChunks]

theorem joinChunks_splitChunks (cs : List Char) :
    joinChunks (splitChunks cs) = cs := by
  induction cs with
  | nil => rfl
  | cons c rest ih =>
    simp only [splitChunks]
    by_cases h : (c == '\n' && startsX rest) = true
    · rw [if_pos h]
      have hc : c = '\n' := by
        have := (Bool.and_eq_true _ _).mp h
        exact eq_of_beq this.1
      cases hs : splitChunks rest with
      | nil => exact absurd hs (splitChunks_ne_nil rest)
      | cons g gs =>
        rw [hs] at ih
        simp [joinChunks, hc, ih]
    · rw [if_neg h]
      cases hs : splitChunks rest with
      | nil => exact absurd hs (splitChunks_ne_nil rest)
      | cons g gs =>
        rw [hs] at ih
        rw [joinChunks_cons_head, ih]

/-! ## Helper lemmas: field extraction -/

theorem isPrefixOf_marker_ne {a b : Char} (l : List Char) (hab : a ≠ b)
    (h : List.isPrefixOf [a, ':'] l = true) :
    List.isPrefixOf [b, ':'] l = false := by
  cases l with
  | nil => simp [List.isPrefixOf] at h
  | cons c t =>
    simp only [List.isPrefixOf, Bool.and_eq_true, beq_iff_eq] at h
    obtain ⟨rfl, -⟩ := h
    have hba : (b == a) = false := beq_eq_false_iff_ne.mpr (Ne.symm hab)
    simp [List.isPrefixOf, hba]

theorem updateLine_raw (d : TuneDict) (rawLine : List Char) :
    (updateLine d rawLine).raw_text = d.raw_text := by
  simp only [updateLine]
  split
  · rfl
  · split
    · rfl
    · split
      · rfl
      · split
        · rfl
        · split <;> rfl

theorem updateLine_ref (d : TuneDict) (rawLine : List Char) :
    (updateLine d rawLine).reference_number
      = (fieldVal 'X' (pyStrip rawLine)).getD d.reference_number := by
  simp only [updateLine, fieldVal]
  by_cases hX : List.isPrefixOf ['X', ':'] (pyStrip rawLine) = true
  · simp [hX]
  · simp only [Bool.not_eq_true] at hX
    simp only [hX, Bool.false_eq_true, if_false, Option.getD_none]
    split
    · rfl
    · split
      · rfl
      · split
        · rfl
        · split <;> rfl

theorem updateLine_type (d : TuneDict) (rawLine : List Char) :
    (updateLine d rawLine).type = (fieldVal 'R' (pyStrip rawLine)).getD d.type := by
  simp only [updateLine, fieldVal]
  by_cases hR : List.isPrefixOf ['R', ':'] (pyStrip rawLine) = true
  · have hX := isPrefixOf_marker_ne (pyStrip rawLine) (show ('R' : Char) ≠ 'X' by decide) hR
    have hT := isPrefixOf_marker_ne (pyStrip rawLine) (show ('R' : Char) ≠ 'T' by decide) hR
    simp [hR, hX, hT]
  · simp only [Bool.not_eq_true] at hR
    simp only [hR, Bool.false_eq_true, if_false, Option.getD_none]
    split
    · rfl
    · split
      · rfl
      · split
        · rfl
        · split <;> rfl

theorem updateLine_meter (d : TuneDict) (rawLine : List Char) :
    (updateLine d rawLine).meter = (fieldVal 'M' (pyStrip rawLine)).getD d.meter := by
  simp only [updateLine, fieldVal]
  by_cases hM : List.isPrefixOf ['M', ':'] (pyStrip rawLine) = true
  · have hX := isPrefixOf_marker_ne (pyStrip rawLine) (show ('M' : Char) ≠ 'X' by decide) hM
    have hT := isPrefixOf_marker_ne (pyStrip rawLine) (show ('M' : Char) ≠ 'T' by decide) hM
    have hR := isPrefixOf_marker_ne (pyStrip rawLine) (show ('M' : Char) ≠ 'R' by decide) hM
    simp [hM, hX, hT, hR]
  · simp only [Bool.not_eq_true] at hM
    simp only [hM, Bool.false_eq_true, if_false, Option.getD_none]
    split
    · rfl
    · split
      · rfl
      · split
        · rfl
        · split <;> rfl

theorem updateLine_key (d : TuneDict) (rawLine : List Char) :
    (updateLine d rawLine).key = (fieldVal 'K' (pyStrip rawLine)).getD d.key := by
  simp only [updateLine, fieldVal]
  by_cases hK : List.isPrefixOf ['K', ':'] (pyStrip rawLine) = true
  · have hX := isPrefixOf_marker_ne (pyStrip rawLine) (show ('K' : Char) ≠ 'X' by decide) hK
    have hT := isPrefixOf_marker_ne (pyStrip rawLine) (show ('K' : Char) ≠ 'T' by decide) hK
    have hR := isPrefixOf_marker_ne (pyStrip rawLine) (show ('K' : Char) ≠ 'R' by decide) hK
    have hM := isPrefixOf_marker_ne (pyStrip rawLine) (show ('K' : Char) ≠ 'M' by decide) hK
    simp [hK, hX, hT, hR, hM]
  · simp only [Bool.not_eq_true] at hK
    simp only [hK, Bool.false_eq_true, if_false, Option.getD_none]
    split
    · rfl
    · split
      · rfl
      · split
        · rfl
        · split <;> rfl

theorem updateLine_title (d : TuneDict) (rawLine : List Char) :
    (updateLine d rawLine).title =
      if d.title.isEmpty then (fieldVal 'T' (pyStrip rawLine)).getD d.title
      else d.title := by
  simp only [updateLine, fieldVal]
  by_cases hT : List.isPrefixOf ['T', ':'] (pyStrip rawLine) = true
  · have hX := isPrefixOf_marker_ne (pyStrip rawLine) (show ('T' : Char) ≠ 'X' by decide) hT
    by_cases he : d.title.isEmpty = true
    · simp [hT, hX, he]
    · simp only [Bool.not_eq_true] at he
      have hR := isPrefixOf_marker_ne (pyStrip rawLine) (show ('T' : Char) ≠ 'R' by decide) hT
      have hM := isPrefixOf_marker_ne (pyStrip rawLine) (show ('T' : Char) ≠ 'M' by decide) hT
      have hK := isPrefixOf_marker_ne (pyStrip rawLine) (show ('T' : Char) ≠ 'K' by decide) hT
      simp [hT, hX, hR, hM, hK, he]
  · simp only [Bool.not_eq_true] at hT
    simp only [hT, Bool.false_and, Bool.false_eq_true, if_false, Option.getD_none]
    split
    · simp
    · split
      · simp
      · split
        · simp
        · split <;> simp

theorem foldl_updateLine_raw (ls : List (List Char)) :
    ∀ d : TuneDict, (ls.foldl updateLine d).raw_text = d.raw_text := by
  induction ls with
  | nil => intro d; rfl
  | cons r rs ih =>
    intro d
    rw [List.foldl_cons, ih, updateLine_raw]

theorem foldl_updateLine_getLastD (proj : TuneDict → List Char) (p : Char)
    (hstep : ∀ d r, proj (updateLine d r) = (fieldVal p (pyStrip r)).getD (proj d))
    (ls : List (List Char)) :
    ∀ d : TuneDict,
      proj (ls.foldl updateLine d)
        = (ls.filterMap (fun r => fieldVal p (pyStrip r))).getLastD (proj d) := by
  induction ls with
  | nil => intro d; rfl
  | cons r rs ih =>
    intro d
    rw [List.foldl_cons, ih, List.filterMap_cons]
    cases h : fieldVal p (pyStrip r) with
    | none => rw [hstep, h, Option.getD_none]
    | some v => rw [hstep, h, Option.getD_some, List.getLastD_cons]

theorem foldl_updateLine_title (ls : List (List Char)) :
    ∀ d : TuneDict,
      (ls.foldl updateLine d).title =
        if d.title.isEmpty then
          ((ls.filterMap (fun r => fieldVal 'T' (pyStrip r))).filter
              (fun v => !v.isEmpty)).headD d.title
        else d.title := by
  induction ls with
  | nil => intro d; by_cases he : d.title.isEmpty = true <;> simp [he]
  | cons r rs ih =>
    intro d
    rw [List.foldl_cons, ih, List.filterMap_cons]
    by_cases he : d.title.isEmpty = true
    · have hnil : d.title = [] := by
        cases hd : d.title with
        | nil => rfl
        | cons a t => rw [hd] at he; simp [List.isEmpty] at he
      cases h : fieldVal 'T' (pyStrip r) with
      | none =>
        rw [updateLine_title, h]
        simp [he]
      | some v =>
        rw [updateLine_title, h]
        simp only [he, if_true, Option.getD_some]
        by_cases hv : v.isEmpty = true
        · have hvnil : v = [] := by
            cases hv2 : v with
            | nil => rfl
            | cons a t => rw [hv2] at hv; simp [List.isEmpty] at hv
          simp [hv, hvnil, hnil]
        · simp [hv]
    · simp only [Bool.not_eq_true] at he
      rw [updateLine_title]
      simp [he]

theorem parse_single_tune_raw (s : List Char) :
    (parse_single_tune s).raw_text = s := by
  unfold parse_single_tune
  rw [foldl_updateLine_raw]

theorem parse_single_tune_ref (s : List Char) :
    (parse_single_tune s).reference_number = (valsOf 'X' s).getLastD [] := by
  unfold parse_single_tune valsOf
  rw [foldl_updateLine_getLastD TuneDict.reference_number 'X' updateLine_ref,
    List.filterMap_map]
  rfl

theorem parse_single_tune_type (s : List Char) :
    (parse_single_tune s).type = (valsOf 'R' s).getLastD [] := by
  unfold parse_single_tune valsOf
  rw [foldl_updateLine_getLastD TuneDict.type 'R' updateLine_type,
    List.filterMap_map]
  rfl

theorem parse_single_tune_meter (s : List Char) :
    (parse_single_tune s).meter = (valsOf 'M' s).getLastD [] := by
  unfold parse_single_tune valsOf
  rw [foldl_updateLine_getLastD TuneDict.meter 'M' updateLine_meter,
    List.filterMap_map]
  rfl

theorem parse_single_tune_key (s : List Char) :
    (parse_single_tune s).key = (valsOf 'K' s).getLastD [] := by
  unfold parse_single_tune valsOf
  rw [foldl_updateLine_getLastD TuneDict.key 'K' updateLine_key,
    List.filterMap_map]
  rfl

theorem parse_single_tune_title (s : List Char) :
    (parse_single_tune s).title = firstNonemptyVal 'T' s := by
  unfold parse_single_tune firstNonemptyVal valsOf
  rw [foldl_updateLine_title, List.filterMap_map]
  rfl

/-! ## Helper lemmas: batch loader -/

theorem countOk_le (okF : Nat → Bool) :
    ∀ (len n0 : Nat), countOk okF n0 len ≤ len := by
  intro len
  induction len with
  | zero => intro n0; simp [countOk]
  | succ n ih =>
    intro n0
    have := ih (n0 + 1)
    simp only [countOk]
    by_cases h : okF n0 = true <;> simp [h] <;> omega

theorem insert_tunes_batch_general (book_number : Nat) (file_path : List Char)
    (tunes : List TuneDict) :
    ∀ (c0 : Nat) (db : DB),
      tunes.foldl (batchStep book_number file_path) (c0, db)
      = (c0 + countOk db.ok db.nAttempts tunes.length,
         { ok := db.ok, nAttempts := db.nAttempts + tunes.length,
           rows := db.rows ++ successRows db.ok db.nAttempts book_number file_path tunes }) := by
  induction tunes with
  | nil => intro c0 db; simp [countOk, successRows]
  | cons t ts ih =>
    intro c0 db
    by_cases h : db.ok db.nAttempts = true
    · have h1 :
          batchStep book_number file_path (c0, db) t
          = (c0 + 1, { ok := db.ok, nAttempts := db.nAttempts + 1,
                       rows := db.rows ++ [mkRow book_number t file_path] }) := by
        simp [batchStep, insert_tune, h]
      rw [List.foldl_cons, h1, ih]
      simp only [countOk, successRows, h, if_true, List.length_cons, Prod.mk.injEq, DB.mk.injEq]
      refine ⟨by omega, trivial, by omega, by simp⟩
    · simp only [Bool.not_eq_true] at h
      have h1 :
          batchStep book_number file_path (c0, db) t
          = (c0, { ok := db.ok, nAttempts := db.nAttempts + 1, rows := db.rows }) := by
        simp [batchStep, insert_tune, h]
      rw [List.foldl_cons, h1, ih]
      simp only [countOk, successRows, h, Bool.false_eq_true, if_false, List.length_cons,
        Prod.mk.injEq, DB.mk.injEq]
      refine ⟨by omega, trivial, by omega, by simp⟩

theorem insert_tunes_batch_eq (db : DB) (tunes : List TuneDict)
    (book_number : Nat) (file_path : List Char) :
    insert_tunes_batch db tunes book_number file_path
      = (countOk db.ok db.nAttempts tunes.length,
         { ok := db.ok, nAttempts := db.nAttempts + tunes.length,
           rows := db.rows ++ successRows db.ok db.nAttempts book_number file_path tunes }) := by
  unfold insert_tunes_batch
  rw [insert_tunes_batch_general]
  simp

/-! ## Helper lemmas: pipeline driver -/

theorem processFile_outcome (st : RunState) (f : FileTask) :
    ∃ o : FileOutcome, (processFile st f).outcomes = st.outcomes ++ [o]
      ∧ (processFile st f).files_processed
          = st.files_processed + (if outcomeLoaded o then 1 else 0) := by
  cases hf : f.fate with
  | crash => exact ⟨FileOutcome.failed, by simp [processFile, hf, outcomeLoaded]⟩
  | readRes r =>
    by_cases ht : (parse_abc_file_from_read r).isEmpty = true
    · exact ⟨FileOutcome.noTunes, by simp [processFile, hf, ht, outcomeLoaded]⟩
    · refine ⟨FileOutcome.loaded
        (insert_tunes_batch st.db (parse_abc_file_from_read r) f.book_number f.file_path).1, ?_⟩
      simp [processFile, hf, ht, outcomeLoaded]

theorem foldl_processFile_outcomes_length (files : List FileTask) :
    ∀ st : RunState,
      (files.foldl processFile st).outcomes.length = st.outcomes.length + files.length := by
  induction files with
  | nil => intro st; simp
  | cons f fs ih =>
    intro st
    rw [List.foldl_cons, ih]
    obtain ⟨o, ho, -⟩ := processFile_outcome st f
    rw [ho]
    simp
    omega

theorem foldl_processFile_files_processed (files : List FileTask) :
    ∀ st : RunState,
      (files.foldl processFile st).files_processed + st.outcomes.countP outcomeLoaded
        = st.files_processed + (files.foldl processFile st).outcomes.countP outcomeLoaded := by
  induction files with
  | nil => intro st; simp [Nat.add_comm]
  | cons f fs ih =>
    intro st
    rw [List.foldl_cons]
    have h2 := ih (processFile st f)
    obtain ⟨o, ho, hfp⟩ := processFile_outcome st f
    rw [ho, hfp, List.countP_append] at h2
    simp only [List.countP_cons, List.countP_nil] at h2
    by_cases hol : outcomeLoaded o = true
    · simp only [hol, if_true] at h2 ⊢
      omega
    · simp only [Bool.not_eq_true] at hol
      simp only [hol, Bool.false_eq_true, if_false] at h2 ⊢
      omega

theorem outcome_trichotomy (l : List FileOutcome) :
    l.countP outcomeLoaded + l.countP outcomeNoTunes + l.countP outcomeFailed
      = l.length := by
  induction l with
  | nil => rfl
  | cons o t ih =>
    simp only [List.countP_cons, List.length_cons]
    cases o <;> simp [outcomeLoaded, outcomeNoTunes, outcomeFailed] <;> omega

/-! ## Helper lemmas: file locator -/

/-- What one root entry contributes to the locator's output on the
non-raising path (spec-side characterization of the loop body). -/
def locFiles (uni : Char → PyCharNumeric) (root_dir : List Char) (e : RootEntry) :
    List (Nat × List Char) :=
  match pyInt uni e.name with
  | some book_number =>
    if e.isDir && pyIsDigitStr uni e.name then
      (e.children.filter (fun c => endsWithAbc c.name)).map
        (fun c => (book_number, pathJoin (pathJoin root_dir e.name) c.name))
    else []
  | none => []

/-- The entry on which `int` raises: a directory whose isdigit-true
name is not int-convertible. -/
def locBad (uni : Char → PyCharNumeric) (e : RootEntry) : Bool :=
  e.isDir && pyIsDigitStr uni e.name && (pyInt uni e.name).isNone

theorem locBad_iff (uni : Char → PyCharNumeric) (e : RootEntry) :
    locBad uni e = true ↔
      ((e.isDir && pyIsDigitStr uni e.name) = true ∧ pyInt uni e.name = none) := by
  unfold locBad
  rw [Bool.and_eq_true, Option.isNone_iff_eq_none]

theorem foldl_append_ite {α β : Type} (p : α → Bool) (g : α → β) (l : List α) :
    ∀ acc : List β,
      l.foldl (fun a c => if p c then a ++ [g c] else a) acc
        = acc ++ (l.filter p).map g := by
  induction l with
  | nil => intro acc; simp
  | cons c t ih =>
    intro acc
    rw [List.foldl_cons]
    by_cases h : p c = true
    · rw [if_pos h, ih]
      simp [h]
    · rw [if_neg (by simp [h]), ih]
      simp [h]

theorem foldl_locStep_error (uni : Char → PyCharNumeric) (root_dir : List Char)
    (listing : List RootEntry) (err : Unit) :
    listing.foldl (locStep uni root_dir) (Except.error err) = Except.error err := by
  induction listing with
  | nil => rfl
  | cons e l ih =>
    rw [List.foldl_cons]
    exact ih

theorem foldl_locStep_ok (uni : Char → PyCharNumeric) (root_dir : List Char)
    (listing : List RootEntry) :
    ∀ acc : List (Nat × List Char),
      listing.foldl (locStep uni root_dir) (Except.ok acc)
        = if listing.any (locBad uni) then Except.error ()
          else Except.ok (acc ++ listing.flatMap (locFiles uni root_dir)) := by
  induction listing with
  | nil => intro acc; simp
  | cons e l ih =>
    intro acc
    rw [List.foldl_cons]
    by_cases hc : (e.isDir && pyIsDigitStr uni e.name) = true
    · cases hint : pyInt uni e.name with
      | none =>
        have hstep : locStep uni root_dir (Except.ok acc) e = Except.error () := by
          simp [locStep, hc, hint]
        rw [hstep, foldl_locStep_error]
        have hbad : locBad uni e = true := by simp [locBad, hc, hint]
        simp [List.any_cons, hbad]
      | some bk =>
        have hstep : locStep uni root_dir (Except.ok acc) e
            = Except.ok (acc ++ (e.children.filter (fun c => endsWithAbc c.name)).map
                (fun c => (bk, pathJoin (pathJoin root_dir e.name) c.name))) := by
          simp only [locStep, hc, if_true, hint]
          rw [foldl_append_ite]
        rw [hstep, ih]
        have hbad : locBad uni e = false := by simp [locBad, hint]
        by_cases ha : l.any (locBad uni) = true
        · simp [List.any_cons, hbad, ha]
        · simp only [Bool.not_eq_true] at ha
          simp [List.any_cons, hbad, ha, locFiles, hint, hc, List.flatMap_cons,
            List.append_assoc]
    · simp only [Bool.not_eq_true] at hc
      have hstep : locStep uni root_dir (Except.ok acc) e = Except.ok acc := by
        simp [locStep, hc]
      rw [hstep, ih]
      have hbad : locBad uni e = false := by simp [locBad, hc]
      have hfe : locFiles uni root_dir e = [] := by
        unfold locFiles
        cases pyInt uni e.name <;> simp [hc]
      simp [List.any_cons, hbad, hfe]

theorem find_abc_files_eq (uni : Char → PyCharNumeric) (root_dir : List Char)
    (listing : List RootEntry) :
    find_abc_files uni root_dir listing
      = if listing.any (locBad uni) then Except.error ()
        else Except.ok (listing.flatMap (locFiles uni root_dir)) := by
  unfold find_abc_files
  rw [foldl_locStep_ok]
  simp

theorem mem_locFiles {uni : Char → PyCharNumeric} {root_dir : List Char}
    {e : RootEntry} {b : Nat} {p : List Char} :
    (b, p) ∈ locFiles uni root_dir e ↔
      (e.isDir && pyIsDigitStr uni e.name) = true ∧
        ∃ v, pyInt uni e.name = some v ∧ b = v ∧
          ∃ c ∈ e.children, endsWithAbc c.name = true ∧
            p = pathJoin (pathJoin root_dir e.name) c.name := by
  unfold locFiles
  cases hint : pyInt uni e.name with
  | none => simp
  | some v0 =>
    by_cases hc : (e.isDir && pyIsDigitStr uni e.name) = true
    · simp only [hc, if_true, true_and, List.mem_map, List.mem_filter,
        Option.some.injEq]
      constructor
      · rintro ⟨c, ⟨hcm, habc⟩, heq⟩
        injection heq with h1 h2
        exact ⟨v0, rfl, h1.symm, c, hcm, habc, h2.symm⟩
      · rintro ⟨v, hv, hb, c, hcm, habc, hp⟩
        subst hv
        subst hb
        subst hp
        exact ⟨c, ⟨hcm, habc⟩, rfl⟩
    · simp only [Bool.not_eq_true] at hc
      simp [hc]

/-- Erase everything below the second directory level (the part of the
filesystem a one-level locator must never consult). -/
def stripDeeper (e : RootEntry) : RootEntry :=
  { e with children := e.children.map (fun c => { c with deeper := [] }) }

theorem locBad_stripDeeper (uni : Char → PyCharNumeric) (e : RootEntry) :
    locBad uni (stripDeeper e) = locBad uni e := rfl

theorem locFiles_stripDeeper (uni : Char → PyCharNumeric) (root_dir : List Char)
    (e : RootEntry) :
    locFiles uni root_dir (stripDeeper e) = locFiles uni root_dir e := by
  unfold locFiles
  rw [show (stripDeeper e).name = e.name from rfl,
    show (stripDeeper e).isDir = e.isDir from rfl,
    show (stripDeeper e).children
      = e.children.map (fun c => { c with deeper := [] }) from rfl]
  cases hint : pyInt uni e.name with
  | none => rfl
  | some bk =>
    by_cases hc : (e.isDir && pyIsDigitStr uni e.name) = true
    · simp only [hc, if_true, List.filter_map, List.map_map]
      rfl
    · simp [hc]

theorem find_abc_files_stripDeeper (uni : Char → PyCharNumeric)
    (root_dir : List Char) (listing : List RootEntry) :
    find_abc_files uni root_dir (listing.map stripDeeper)
      = find_abc_files uni root_dir listing := by
  rw [find_abc_files_eq, find_abc_files_eq]
  have hflat : (listing.map stripDeeper).flatMap (locFiles uni root_dir)
      = listing.flatMap (locFiles uni root_dir) := by
    induction listing with
    | nil => rfl
    | cons e l ih =>
      rw [List.map_cons, List.flatMap_cons, List.flatMap_cons,
        locFiles_stripDeeper, ih]
  have hany : (listing.map stripDeeper).any (locBad uni) = listing.any (locBad uni) := by
    rw [List.any_map]
    have h : locBad uni ∘ stripDeeper = locBad uni :=
      funext fun e => locBad_stripDeeper uni e
    rw [h]
  rw [hany, hflat]

/-! ## Helper lemmas: parse_abc_file -/

theorem keepChunk_eq (s : List Char) :
    keepChunk s = List.isPrefixOf ['X', ':'] (pyStrip s) := by
  unfold keepChunk
  cases h : pyStrip s with
  | nil => simp [List.isPrefixOf, List.isEmpty]
  | cons c t => simp [List.isEmpty]

theorem mem_parse_abc_file_raw (content : List Char) (d : TuneDict)
    (hd : d ∈ parse_abc_file content) : d.raw_text ∈ splitChunks content := by
  unfold parse_abc_file at hd
  obtain ⟨s, hs, rfl⟩ := List.mem_map.mp hd
  rw [parse_single_tune_raw]
  exact (List.mem_filter.mp hs).1

/-! ## Claims -/

/-- Claim C1, counterexample.  The claim says re-concatenating all
chunks (preamble included) reconstructs the original text exactly; but
the splitter consumes the newline before each `X:`, so plain
concatenation of the two chunks of `"X:1\nX:2"` gives `"X:1X:2"`,
not the original. -/
theorem c1_counterexample :
    (splitChunks ['X', ':', '1', '\n', 'X', ':', '2']).flatten
      ≠ ['X', ':', '1', '\n', 'X', ':', '2'] := by decide

/-- Claim C1, amended: segmenting then re-joining the chunks with a
single newline re-inserted between consecutive chunks reconstructs the
original text exactly (the split is lossless once the consumed
separator newlines are restored), and every extracted record's
`raw_text` is one of the chunks verbatim — it contains every line
consumed for the record, its `X:` marker line included, but not the
separator newline the splitter consumed. -/
theorem c1_lossless_join (cs : List Char) :
    joinChunks (splitChunks cs) = cs ∧
      ∀ d ∈ parse_abc_file cs, d.raw_text ∈ splitChunks cs := by
  refine ⟨joinChunks_splitChunks cs, ?_⟩
  intro d hd
  exact mem_parse_abc_file_raw cs d hd

/-- Witness for C1's amended theorem at the two-record input
`"X:1\nX:2"`. -/
theorem c1_lossless_join_witness :
    joinChunks (splitChunks ['X', ':', '1', '\n', 'X', ':', '2'])
        = ['X', ':', '1', '\n', 'X', ':', '2'] ∧
      (parse_single_tune ['X', ':', '1']).raw_text
        ∈ splitChunks ['X', ':', '1', '\n', 'X', ':', '2'] :=
  ⟨(c1_lossless_join ['X', ':', '1', '\n', 'X', ':', '2']).1,
   (c1_lossless_join ['X', ':', '1', '\n', 'X', ':', '2']).2
     (parse_single_tune ['X', ':', '1']) (by decide)⟩

/-- Claim C3, counterexample.  The claim says any leading text before
the first line that starts with `X:` at the start of a line is
discarded.  In `" X:1\nX:2"` the first line starting with `X:` at the
start of a line is `"X:2"`, so `" X:1"` is leading text; but its
trimmed content begins with `X:`, so the code keeps it and the file
yields two records (references 1 and 2), not one. -/
theorem c3_counterexample :
    (parse_abc_file [' ', 'X', ':', '1', '\n', 'X', ':', '2']).map
        TuneDict.reference_number = [['1'], ['2']] := by decide

/-- Claim C3, amended: a chunk — the leading-preamble chunk included —
is filtered out before extraction exactly when its trimmed content
does not begin with `X:` (the emptiness test of the source is subsumed
by that condition); leading text whose trimmed content does begin with
`X:` yields a record like any other chunk. -/
theorem c3_chunk_filter (content : List Char) :
    parse_abc_file content
      = ((splitChunks content).filter
          (fun s => List.isPrefixOf ['X', ':'] (pyStrip s))).map parse_single_tune := by
  unfold parse_abc_file
  congr 1
  apply List.filter_congr
  intro s _
  exact keepChunk_eq s

/-- Claim C5, counterexample.  The claim says the first `T:` line's
value is kept and later `T:` lines are ignored.  In a chunk whose
first `T:` line has an empty value (`"X:1\nT:\nT:B"`), the guard
`and not tune_dict['title']` still holds at the second `T:` line —
an empty title is falsy — so the code stores `"B"`, not the first
`T:` value `""`. -/
theorem c5_counterexample :
    (parse_single_tune ['X', ':', '1', '\n', 'T', ':', '\n', 'T', ':', 'B']).title
        = ['B'] ∧
      (valsOf 'T' ['X', ':', '1', '\n', 'T', ':', '\n', 'T', ':', 'B']).headD []
        = [] := by decide

/-- Claim C5, amended: the extractor keeps as title the value of the
first `T:` line whose trimmed value is non-empty (a `T:` line with an
empty value leaves the title unset, so a later `T:` line can still set
it); for `R:` (type), `M:` (meter) and `K:` (key) the last occurrence
wins, each new match overwriting the prior value; the stored value is
everything after the two-character prefix of the trimmed line,
trimmed. -/
theorem c5_field_policy (s : List Char) :
    (parse_single_tune s).title = firstNonemptyVal 'T' s ∧
      (parse_single_tune s).type = (valsOf 'R' s).getLastD [] ∧
      (parse_single_tune s).meter = (valsOf 'M' s).getLastD [] ∧
      (parse_single_tune s).key = (valsOf 'K' s).getLastD [] :=
  ⟨parse_single_tune_title s, parse_single_tune_type s,
   parse_single_tune_meter s, parse_single_tune_key s⟩

/-- Claim C6: extraction is total — `parse_single_tune` is a total
function (no partiality appears anywhere in its embedding, matching
the exception-free Python body) — and always yields a fully shaped
record: `raw_text` is the verbatim input chunk, and every field whose
marker never occurs (for the title: never with a non-empty value)
is the empty string, never absent. -/
theorem c6_extraction_total (s : List Char) :
    (parse_single_tune s).raw_text = s ∧
      (valsOf 'X' s = [] → (parse_single_tune s).reference_number = []) ∧
      (valsOf 'T' s = [] → (parse_single_tune s).title = []) ∧
      (valsOf 'R' s = [] → (parse_single_tune s).type = []) ∧
      (valsOf 'M' s = [] → (parse_single_tune s).meter = []) ∧
      (valsOf 'K' s = [] → (parse_single_tune s).key = []) := by
  refine ⟨parse_single_tune_raw s, ?_, ?_, ?_, ?_, ?_⟩
  · intro h; rw [parse_single_tune_ref, h]; rfl
  · intro h; rw [parse_single_tune_title s]; unfold firstNonemptyVal; rw [h]; rfl
  · intro h; rw [parse_single_tune_type, h]; rfl
  · intro h; rw [parse_single_tune_meter, h]; rfl
  · intro h; rw [parse_single_tune_key, h]; rfl

/-- Witness for C6 at the chunk `"free"` (no recognized field line):
the record is fully shaped with all five fields empty and the
verbatim raw text. -/
theorem c6_extraction_total_witness :
    (parse_single_tune ['f', 'r', 'e', 'e']).raw_text = ['f', 'r', 'e', 'e'] ∧
      (parse_single_tune ['f', 'r', 'e', 'e']).reference_number = [] ∧
      (parse_single_tune ['f', 'r', 'e', 'e']).title = [] ∧
      (parse_single_tune ['f', 'r', 'e', 'e']).type = [] ∧
      (parse_single_tune ['f', 'r', 'e', 'e']).meter = [] ∧
      (parse_single_tune ['f', 'r', 'e', 'e']).key = [] :=
  ⟨(c6_extraction_total ['f', 'r', 'e', 'e']).1,
   (c6_extraction_total ['f', 'r', 'e', 'e']).2.1 (by decide),
   (c6_extraction_total ['f', 'r', 'e', 'e']).2.2.1 (by decide),
   (c6_extraction_total ['f', 'r', 'e', 'e']).2.2.2.1 (by decide),
   (c6_extraction_total ['f', 'r', 'e', 'e']).2.2.2.2.1 (by decide),
   (c6_extraction_total ['f', 'r', 'e', 'e']).2.2.2.2.2 (by decide)⟩

/-- Claim C9 (implicit): the reference number is last-wins — the
record's `reference_number` is the value of the last `X:` line of the
chunk (empty when there is none), each occurrence overwriting the
previous one; there is no first-occurrence guard as for the title. -/
theorem c9_last_reference_wins (s : List Char) :
    (parse_single_tune s).reference_number = (valsOf 'X' s).getLastD [] :=
  parse_single_tune_ref s

/-- Claim C7: the batch loader's return value is at most the number of
input records and equals the number of records whose individual
persistence attempt succeeds; a failed attempt does not abort the
batch — every record consumes exactly one attempt (the attempt counter
advances by the full batch length) and the successfully persisted rows
are appended in input order. -/
theorem c7_batch_count (db : DB) (tunes : List TuneDict) (book_number : Nat)
    (file_path : List Char) :
    (insert_tunes_batch db tunes book_number file_path).1 ≤ tunes.length ∧
      (insert_tunes_batch db tunes book_number file_path).1
        = countOk db.ok db.nAttempts tunes.length ∧
      (insert_tunes_batch db tunes book_number file_path).2.nAttempts
        = db.nAttempts + tunes.length ∧
      (insert_tunes_batch db tunes book_number file_path).2.rows
        = db.rows ++ successRows db.ok db.nAttempts book_number file_path tunes := by
  rw [insert_tunes_batch_eq]
  exact ⟨countOk_le db.ok tunes.length db.nAttempts, rfl, rfl, rfl⟩

/-- Claim C8: every discovered file gets exactly one of the three
per-file outcomes (loaded, no tunes found, caught failure), so the
number of files discovered equals the sum of the three outcome
counts; in particular a failure on one file leaves an outcome and the
run continues — the outcome trace always covers all files. -/
theorem c8_file_trichotomy (db : DB) (files : List FileTask) :
    (load_all_tunes db files).outcomes.length = files.length ∧
      files.length
        = (load_all_tunes db files).outcomes.countP outcomeLoaded
          + (load_all_tunes db files).outcomes.countP outcomeNoTunes
          + (load_all_tunes db files).outcomes.countP outcomeFailed := by
  unfold load_all_tunes
  have hlen := foldl_processFile_outcomes_length files
      { db := db, total_tunes := 0, files_processed := 0, outcomes := [] }
  simp only [List.length_nil, Nat.zero_add] at hlen
  refine ⟨hlen, ?_⟩
  rw [outcome_trichotomy, hlen]

/-- Claim C2, counterexample.  One file parses to one record, and the
persistence oracle fails every insert: the driver still increments
`files_processed` (main.py line 60 sits inside `if tunes:` but does
not look at the inserted count), so it reports 1 processed file while
no file yielded a successfully-loaded record. -/
theorem c2_counterexample :
    (load_all_tunes { ok := fun _ => false, nAttempts := 0, rows := [] }
        [{ book_number := 1, file_path := ['p'],
           fate := FileFate.readRes (some ['X', ':', '1']) }]).files_processed = 1 ∧
      (load_all_tunes { ok := fun _ => false, nAttempts := 0, rows := [] }
          [{ book_number := 1, file_path := ['p'],
             fate := FileFate.readRes (some ['X', ':', '1']) }]).outcomes.countP
          outcomeLoadedPos = 0 := by
  constructor <;> rfl

/-- Claim C2, amended: the driver's "files processed" count equals the
number of files that yielded at least one parsed record and were
handed to the batch loader — regardless of how many of their records
actually persisted (a file all of whose records fail to persist is
still counted). -/
theorem c2_files_processed (db : DB) (files : List FileTask) :
    (load_all_tunes db files).files_processed
      = (load_all_tunes db files).outcomes.countP outcomeLoaded := by
  unfold load_all_tunes
  have h := foldl_processFile_files_processed files
      { db := db, total_tunes := 0, files_processed := 0, outcomes := [] }
  simp only [List.countP_nil] at h
  omega

/-- Claim C10 (implicit): the file-level parse never propagates an
exception — a failed read (`none`) produces `[]`, the list accumulated
before the failure point — and at the driver such a file takes exactly
the same step as a zero-tune file: the per-file outcome is "No tunes
found", not an error. -/
theorem c10_parse_never_raises (st : RunState) (book_number : Nat)
    (file_path : List Char) :
    parse_abc_file_from_read none = [] ∧
      processFile st { book_number := book_number, file_path := file_path,
                       fate := FileFate.readRes none }
        = processFile st { book_number := book_number, file_path := file_path,
                           fate := FileFate.readRes (some []) } ∧
      (processFile st { book_number := book_number, file_path := file_path,
                        fate := FileFate.readRes none }).outcomes
        = st.outcomes ++ [FileOutcome.noTunes] :=
  ⟨rfl, rfl, rfl⟩

/-- A fragment of CPython's Unicode numeric classification, agreeing
with the real database on every character appearing in the C4
counterexample and witness inputs: the ASCII digits are decimal with
their usual values; U+00B2 SUPERSCRIPT TWO has Numeric_Type=Digit, so
`'²'.isdigit()` is true but `int('²')` raises `ValueError`; U+0662
ARABIC-INDIC DIGIT TWO is a decimal digit of value 2, accepted by
both; letters, `'.'` and `'/'` are not numeric. -/
def uniSample : Char → PyCharNumeric := fun c =>
  if '0' ≤ c && c ≤ '9' then PyCharNumeric.decimal (c.toNat - 48)
  else if c = '²' then PyCharNumeric.digitOnly
  else if c = '٢' then PyCharNumeric.decimal 2
  else PyCharNumeric.other

/-- Claim C4, counterexample.  Three failures of the claim as stated:
a directory named `a.abc` inside the numbered folder `2` is returned
as a pair although it is not a file (the locator never checks
`isfile`); a folder named `'²'` — not a valid base-10 integer, since
`int` rejects it — is not silently skipped: `isdigit()` accepts it and
the uncaught `ValueError` from `int` aborts the locator; and a folder
named with the Unicode decimal digit `'٢'` yields a pair with
collection id 2 although its name is not a base-10 numeral. -/
theorem c4_counterexample :
    find_abc_files uniSample ['r']
        [{ name := ['2'], isDir := true,
           children := [{ name := ['a', '.', 'a', 'b', 'c'], isDir := true,
                          deeper := [] }] }]
        = Except.ok [(2, ['r', '/', '2', '/', 'a', '.', 'a', 'b', 'c'])] ∧
      ({ name := ['a', '.', 'a', 'b', 'c'], isDir := true,
         deeper := [] } : ChildEntry).isDir = true ∧
      find_abc_files uniSample ['r']
          [{ name := ['²'], isDir := true, children := [] }]
        = Except.error () ∧
      find_abc_files uniSample ['r']
          [{ name := ['٢'], isDir := true,
             children := [{ name := ['b', '.', 'a', 'b', 'c'], isDir := false,
                            deeper := [] }] }]
        = Except.ok [(2, ['r', '/', '٢', '/', 'b', '.', 'a', 'b', 'c'])] :=
  ⟨rfl, rfl, rfl, rfl⟩

/-- Claim C4, amended: under the Python runtime's Unicode numeric
table, the locator raises an uncaught `ValueError` — aborting the walk
with no result — exactly when some immediate subdirectory's name
passes `str.isdigit()` but is not `int()`-convertible (it contains a
digit-class, non-decimal character such as `'²'`); otherwise it
returns exactly the pairs `(collection_id, file_path)` where
`collection_id` is the integer `int()` computes from the Unicode
decimal digits (of any script, not only ASCII) of an immediate
subdirectory whose name passes `isdigit()`, and `file_path` names a
directory entry (regular file or not — the entry type is never
checked) of that subdirectory whose name ends in `.abc`
(case-sensitive); all remaining folder names and non-matching entries
are silently skipped, and no deeper filesystem level is consulted —
erasing everything below the second level does not change the
result. -/
theorem c4_locator (uni : Char → PyCharNumeric) (root_dir : List Char)
    (listing : List RootEntry) (b : Nat) (p : List Char) :
    (find_abc_files uni root_dir listing = Except.error () ↔
        ∃ e ∈ listing, (e.isDir && pyIsDigitStr uni e.name) = true ∧
          pyInt uni e.name = none) ∧
      (∀ l, find_abc_files uni root_dir listing = Except.ok l →
        ((b, p) ∈ l ↔
          ∃ e ∈ listing, (e.isDir && pyIsDigitStr uni e.name) = true ∧
            ∃ v, pyInt uni e.name = some v ∧ b = v ∧
              ∃ c ∈ e.children, endsWithAbc c.name = true ∧
                p = pathJoin (pathJoin root_dir e.name) c.name)) ∧
      find_abc_files uni root_dir (listing.map stripDeeper)
        = find_abc_files uni root_dir listing := by
  have hbadiff : listing.any (locBad uni) = true ↔
      ∃ e ∈ listing, (e.isDir && pyIsDigitStr uni e.name) = true ∧
        pyInt uni e.name = none := by
    rw [List.any_eq_true]
    exact exists_congr fun e => and_congr_right fun _ => locBad_iff uni e
  refine ⟨?_, ?_, find_abc_files_stripDeeper uni root_dir listing⟩
  · rw [find_abc_files_eq]
    by_cases ha : listing.any (locBad uni) = true
    · rw [if_pos ha]
      exact iff_of_true rfl (hbadiff.mp ha)
    · rw [if_neg ha]
      refine iff_of_false (by simp) ?_
      intro hex
      exact ha (hbadiff.mpr hex)
  · intro l hl
    rw [find_abc_files_eq] at hl
    by_cases ha : listing.any (locBad uni) = true
    · rw [if_pos ha] at hl
      exact absurd hl (by simp)
    · rw [if_neg ha] at hl
      injection hl with hl
      rw [← hl, List.mem_flatMap]
      exact exists_congr fun e => and_congr_right fun _ => mem_locFiles

/-- Witness for C4's amended theorem: the success-path membership
characterization, instantiated at the folder `2` containing the file
`a.abc` under the sample Unicode table, with the run's concrete
`Except.ok` result discharging the hypothesis. -/
theorem c4_locator_witness :
    (2, ['r', '/', '2', '/', 'a', '.', 'a', 'b', 'c'])
      ∈ [((2 : Nat), ['r', '/', '2', '/', 'a', '.', 'a', 'b', 'c'])] :=
  ((c4_locator uniSample ['r']
      [{ name := ['2'], isDir := true,
         children := [{ name := ['a', '.', 'a', 'b', 'c'], isDir := false,
                        deeper := [] }] }]
      2 ['r', '/', '2', '/', 'a', '.', 'a', 'b', 'c']).2.1
    [(2, ['r', '/', '2', '/', 'a', '.', 'a', 'b', 'c'])] rfl).mpr
    ⟨{ name := ['2'], isDir := true,
       children := [{ name := ['a', '.', 'a', 'b', 'c'], isDir := false,
                      deeper := [] }] },
     List.Mem.head _, rfl, 2, rfl, rfl,
     { name := ['a', '.', 'a', 'b', 'c'], isDir := false, deeper := [] },
     List.Mem.head _, rfl, rfl⟩
